import Mathlib

/-!
Shallow embedding of the ads_tracker personal-productivity application.

Each definition translates one function of the TypeScript source; the file
then proves or refutes the frozen claims about the application.  Machine
numbers that occur here (record identifiers, ranks, percentages) are small
integers, so they are modelled by `Nat`/`Int`; monetary values handled by
JavaScript floating point are modelled by exact rationals with `none`
playing NaN.
-/

namespace AdsTracker

/-! ### Goals tracker data model (src/components/trackers/GoalsTracker.tsx) -/

structure MilestoneType where
  id : Nat
  name : String
  completed : Bool
  deriving DecidableEq, Repr

structure NoteType where
  id : Nat
  text : String
  timestamp : String
  deriving DecidableEq, Repr

structure Goal where
  id : Nat
  name : String
  deadline : String
  status : String
  image : Option String
  difficulty : Nat
  milestones : List MilestoneType
  notes : List NoteType
  order : Nat
  archived : Bool
  favorite : Bool
  deriving DecidableEq, Repr

/-- `updateGoalStatus` (GoalsTracker.tsx lines 103-107): derives a status
string from the milestones via `some`/`every` over the completed flags. -/
def updateGoalStatus (goal : Goal) : String :=
  let hasStarted := goal.milestones.any (fun m => m.completed)
  let allCompleted := goal.milestones.all (fun m => m.completed)
  if allCompleted then "Done" else if hasStarted then "In Progress" else "Not Started"

/-- The add-task onClick handler (GoalsTracker.tsx lines 449-459): maps over
the goals, appending a fresh milestone (named New Task, not completed) to the
goal whose id matches.  `newId` stands for the `Date.now()` call. -/
def addMilestoneClick (goals : List Goal) (goalId : Nat) (newId : Nat) : List Goal :=
  goals.map (fun g =>
    if g.id = goalId then
      { g with milestones :=
          g.milestones ++ [{ id := newId, name := "New Task", completed := false }] }
    else g)

/-- The milestone onToggle handler (GoalsTracker.tsx lines 471-482): builds an
updated copy of the rendered goal with the milestone's completed flag flipped,
stores `updateGoalStatus` of that copy in its status field, and substitutes it
for every list entry carrying the rendered goal's id. -/
def toggleMilestoneClick (goals : List Goal) (goal : Goal) (milestoneId : Nat) : List Goal :=
  let toggled :=
    { goal with milestones := goal.milestones.map (fun (m : MilestoneType) =>
        if m.id = milestoneId then { m with completed := !m.completed } else m) }
  let updatedGoal := { toggled with status := updateGoalStatus toggled }
  goals.map (fun g => if g.id = goal.id then updatedGoal else g)

/-- `deleteGoal` (GoalsTracker.tsx lines 155-157). -/
def deleteGoal (goals : List Goal) (goalId : Nat) : List Goal :=
  goals.filter (fun g => g.id ≠ goalId)

/-- `getActiveGoals` (GoalsTracker.tsx line 87). -/
def getActiveGoals (goals : List Goal) : List Goal :=
  goals.filter (fun g => !g.archived)

/-- `getArchivedGoals` (GoalsTracker.tsx line 88). -/
def getArchivedGoals (goals : List Goal) : List Goal :=
  goals.filter (fun g => g.archived)

/-- The `forEach` renumbering inside `handleDrop` (GoalsTracker.tsx lines
225-227): the goal at position `idx` receives order `idx + 1`. -/
def assignOrders (idx : Nat) : List Goal → List Goal
  | [] => []
  | g :: gs => { g with order := idx + 1 } :: assignOrders (idx + 1) gs

/-- `handleDrop` (GoalsTracker.tsx lines 202-233), restricted to its state
effect on the goals list: the dragged active goal is spliced out and
re-inserted at the target's index, active goals are renumbered 1..n, and the
archived goals are appended unchanged.  The early-return paths (same id, id
not found among active goals) leave the list as it was. -/
def handleDrop (goals : List Goal) (draggedGoalId targetGoalId : Nat) : List Goal :=
  if draggedGoalId = targetGoalId then goals
  else
    let activeGoals := getActiveGoals goals
    match activeGoals.findIdx? (fun g => g.id = draggedGoalId),
        activeGoals.findIdx? (fun g => g.id = targetGoalId) with
    | some draggedGoalIndex, some targetGoalIndex =>
      match activeGoals[draggedGoalIndex]? with
      | some removed =>
        let newActiveGoals :=
          (activeGoals.eraseIdx draggedGoalIndex).insertIdx targetGoalIndex removed
        assignOrders 0 newActiveGoals ++ getArchivedGoals goals
      | none => goals
    | _, _ => goals

/-- The progress percentage computed in the render (GoalsTracker.tsx lines
330-333): `Math.round` of the completed fraction times 100 when the milestone
list is nonempty, else the literal 0.  `Math.round` on a nonnegative value is
`round` (floor of x + 1/2), modelled over exact rationals. -/
def goalProgress (g : Goal) : Int :=
  if g.milestones.length ≠ 0 then
    round ((((g.milestones.filter (fun m => m.completed)).length : ℚ) /
      (g.milestones.length : ℚ)) * 100)
  else 0

/-! ### Todo tracker data model (src/components/trackers/TodoTracker.tsx) -/

inductive PriorityLevel where
  | high
  | medium
  | low
  | none
  deriving DecidableEq, Repr

structure TodoNote where
  id : Nat
  text : String
  timestamp : String
  deriving DecidableEq, Repr

structure Todo where
  id : Nat
  text : String
  completed : Bool
  notes : List TodoNote
  priority : PriorityLevel
  archived : Bool
  deriving DecidableEq, Repr

structure TodoGroup where
  id : Nat
  title : String
  todos : List Todo
  deriving DecidableEq, Repr

/-- The `priorityFilter` field's type `PriorityLevel | 'all'`. -/
inductive PriorityFilter where
  | all
  | level (p : PriorityLevel)
  deriving DecidableEq, Repr

structure FilterOptions where
  showCompleted : Bool
  priorityFilter : PriorityFilter
  searchText : String
  viewArchived : Bool
  deriving DecidableEq, Repr

/-- `getPriorityRank` (TodoTracker.tsx lines 75-82). -/
def getPriorityRank : PriorityLevel → Nat
  | .high => 3
  | .medium => 2
  | .low => 1
  | .none => 0

/-- JavaScript `String.prototype.includes` on character lists: the pattern
occurs contiguously.  The empty pattern is always found. -/
def charsInclude (s pat : List Char) : Bool :=
  match s with
  | [] => pat.isEmpty
  | c :: rest => pat.isPrefixOf (c :: rest) || charsInclude rest pat

def strIncludes (s pat : String) : Bool :=
  charsInclude s.data pat.data

/-- The filter body of `getFilteredTodos` (TodoTracker.tsx lines 260-272),
with each early `return false` translated to an if branch. -/
def passesFilter (opts : FilterOptions) (archived : Bool) (todo : Todo) : Bool :=
  if todo.archived != archived then false
  else if !opts.showCompleted && todo.completed then false
  else if opts.priorityFilter != PriorityFilter.all &&
      PriorityFilter.level todo.priority != opts.priorityFilter then false
  else if opts.searchText != "" &&
      !strIncludes todo.text.toLower opts.searchText.toLower &&
      !todo.notes.any (fun note => strIncludes note.text.toLower opts.searchText.toLower) then
    false
  else true

/-- Declarative reformulation of the sequential filter checks: archived flag
matches the requested view, completed todos pass only when shown, the priority
matches the priority filter, and the search text (when nonempty) occurs in the
todo's text or one of its notes, case-insensitively. -/
def passesFilterSpec (opts : FilterOptions) (archived : Bool) (todo : Todo) : Bool :=
  (todo.archived == archived) &&
  (opts.showCompleted || !todo.completed) &&
  (opts.priorityFilter == PriorityFilter.all ||
    opts.priorityFilter == PriorityFilter.level todo.priority) &&
  (opts.searchText == "" || strIncludes todo.text.toLower opts.searchText.toLower ||
    todo.notes.any (fun note => strIncludes note.text.toLower opts.searchText.toLower))

/-- `getFilteredTodos` (TodoTracker.tsx lines 258-274): filter, then sort by
descending priority rank (the comparator `rank b - rank a`). -/
def getFilteredTodos (opts : FilterOptions) (todos : List Todo) (archived : Bool) : List Todo :=
  (todos.filter (passesFilter opts archived)).mergeSort
    (fun a b => getPriorityRank b.priority ≤ getPriorityRank a.priority)

/-- `deleteTodo` (TodoTracker.tsx lines 173-181). -/
def deleteTodo (todoGroups : List TodoGroup) (groupId todoId : Nat) : List TodoGroup :=
  todoGroups.map (fun group =>
    if group.id = groupId then
      { group with todos := group.todos.filter (fun todo => todo.id ≠ todoId) }
    else group)

/-! ### Parsed JSON documents and the import operations

The import handlers receive the output of `JSON.parse`; a parsing failure
(the `catch` arm) is modelled by `Option.none` around the document. -/

inductive Json where
  | null
  | bool (b : Bool)
  | num (q : ℚ)
  | str (s : String)
  | arr (elems : List Json)
  | obj (fields : List (String × Json))

/-- Property access `data.field` on a parsed document: only objects have
fields; on anything else the access yields undefined (`none`). -/
def Json.getField : Json → String → Option Json
  | .obj fields, key => (fields.find? (fun kv => kv.1 == key)).map Prod.snd
  | _, _ => none

/-- `Array.isArray`. -/
def Json.isArray : Json → Bool
  | .arr _ => true
  | _ => false

/-- JavaScript truthiness of a parsed value: false for null, `false`, 0 and
the empty string; arrays and objects are always truthy. -/
def Json.truthy : Json → Bool
  | .null => false
  | .bool b => b
  | .num q => q != 0
  | .str s => s != ""
  | .arr _ => true
  | .obj _ => true

/-- `Object.entries` on a parsed document.  On `null` it throws a TypeError,
modelled as `none`.  Numbers and booleans box to wrappers with no own
enumerable properties; a string yields one index entry per character (each a
one-character string); an array yields its index entries; an object yields
its fields. -/
def Json.entries : Json → Option (List (String × Json))
  | .null => Option.none
  | .bool _ => Option.some []
  | .num _ => Option.some []
  | .str s =>
    Option.some (s.data.enum.map (fun p => (Nat.repr p.1, Json.str (String.mk [p.2]))))
  | .arr elems => Option.some (elems.enum.map (fun p => (Nat.repr p.1, p.2)))
  | .obj fields => Option.some fields

/-- `handleImportProgress` (GoalsTracker.tsx lines 264-283) on an
already-parsed input.  Returns the stored goals blob after the handler and
whether the success alert fired; the `catch` arm (parse failure, or
`data.goals` not an array) alerts an error and leaves the state alone. -/
def handleImportProgress (parsed : Option Json) (prevGoals : Json) : Json × Bool :=
  match parsed with
  | .none => (prevGoals, false)
  | .some data =>
    match data.getField "goals" with
    | .some (Json.arr gs) => (Json.arr gs, true)
    | _ => (prevGoals, false)

/-- `importMoodEntries` (MoodTracker.tsx lines 108-131) on an already-parsed
input: the parsed value is handed to `setEntries` with no shape check; only a
parse failure is caught (console error plus alert). -/
def importMoodEntries (parsed : Option Json) (prevEntries : Json) : Json × Bool :=
  match parsed with
  | .none => (prevEntries, false)
  | .some data => (data, true)

/-- `handleImport` (HouseholdBudgetCalculator.tsx lines 173-183) on an
already-parsed input: accepted when the value of
`importedData.incomes && importedData.expenses` is truthy, otherwise an
error notification is shown and the state is untouched. -/
def handleImport (parsed : Option Json) (prev : Json × Json) : (Json × Json) × Bool :=
  match parsed with
  | .none => (prev, false)
  | .some data =>
    match data.getField "incomes", data.getField "expenses" with
    | .some inc, .some exps =>
      if inc.truthy && exps.truthy then ((inc, exps), true) else (prev, false)
    | _, _ => (prev, false)

/-- `localStorage.getItem`. -/
def storeGet (store : List (String × Json)) (key : String) : Option Json :=
  (store.find? (fun kv => kv.1 == key)).map Prod.snd

/-- `localStorage.setItem`: replaces the value under an existing key, adds
the binding otherwise. -/
def storeSet (store : List (String × Json)) (key : String) (v : Json) : List (String × Json) :=
  if store.any (fun kv => kv.1 == key) then
    store.map (fun kv => if kv.1 == key then (key, v) else kv)
  else store ++ [(key, v)]

/-- `importAllProgress` (App.tsx lines 79-103) on an already-parsed input:
every entry of the document whose value is truthy is written to localStorage
(`if (value) localStorage.setItem(key, value)`); falsy entries are skipped.
When `Object.entries` throws (a parsed `null` document), the surrounding
catch alerts and nothing is written. -/
def importAllProgress (parsed : Option Json) (store : List (String × Json)) :
    List (String × Json) × Bool :=
  match parsed with
  | .none => (store, false)
  | .some data =>
    match data.entries with
    | .none => (store, false)
    | .some es =>
      (es.foldl (fun st kv => if kv.2.truthy then storeSet st kv.1 kv.2 else st) store,
       true)

/-- The shape check of the goals import as a predicate on the parsed input:
accepted exactly when `data.goals` is an array. -/
def goalsImportAccepted (parsed : Option Json) : Bool :=
  match parsed with
  | .none => false
  | .some data =>
    match data.getField "goals" with
    | .some j => j.isArray
    | .none => false

/-- The acceptance condition of the budget import: both top-level fields are
present and truthy (not: are arrays). -/
def budgetImportAccepted (parsed : Option Json) : Bool :=
  match parsed with
  | .none => false
  | .some data =>
    match data.getField "incomes", data.getField "expenses" with
    | .some inc, .some exps => inc.truthy && exps.truthy
    | _, _ => false

/-- The persisted blobs of the independent trackers, side by side.  Each
of the import handlers only ever calls its own tracker's setter, so its
lifting touches a single field. -/
structure AppTrackerState where
  goals : Json
  moodEntries : Json
  incomes : Json
  expenses : Json

/-- The goals import acting on the combined tracker state. -/
def goalsImportApp (parsed : Option Json) (s : AppTrackerState) : AppTrackerState × Bool :=
  let r := handleImportProgress parsed s.goals
  ({ s with goals := r.1 }, r.2)

/-- The mood import acting on the combined tracker state. -/
def moodImportApp (parsed : Option Json) (s : AppTrackerState) : AppTrackerState × Bool :=
  let r := importMoodEntries parsed s.moodEntries
  ({ s with moodEntries := r.1 }, r.2)

/-- The budget import acting on the combined tracker state. -/
def budgetImportApp (parsed : Option Json) (s : AppTrackerState) : AppTrackerState × Bool :=
  let r := handleImport parsed (s.incomes, s.expenses)
  ({ s with incomes := r.1.1, expenses := r.1.2 }, r.2)

/-! ### Budget calculator (src/components/trackers/HouseholdBudgetCalculator.tsx)

Monetary amounts live in text inputs; `calculateTotals` parses them with
`parseFloat` and sums with floating-point addition.  JS numbers are modelled
as `Option ℚ`, with `none` playing NaN; NaN propagates through the
arithmetic. -/

structure FinancialEntry where
  category : String
  amount : String
  purpose : String
  deriving DecidableEq, Repr

def digitVal? (c : Char) : Option Nat :=
  if c.isDigit then Option.some (c.toNat - Char.toNat '0') else Option.none

/-- The numeric value of a digit string, most significant digit first; any
non-digit character poisons the result. -/
def digitsVal (cs : List Char) : Option Nat :=
  cs.foldl (fun acc c =>
    match acc, digitVal? c with
    | Option.some a, Option.some d => Option.some (a * 10 + d)
    | _, _ => Option.none) (Option.some 0)

/-- JavaScript `parseFloat` restricted to plain decimal literals (optional
sign, digits, optional fractional part); strings outside this grammar get no
value, matching the NaN result. -/
def parseFloatQ (s : String) : Option ℚ :=
  let signed : ℚ × List Char :=
    match s.data with
    | '-' :: rest => (-1, rest)
    | '+' :: rest => (1, rest)
    | cs => (1, cs)
  let sign := signed.1
  let cs := signed.2
  let intPart := cs.takeWhile (fun c => c.isDigit)
  let rest := cs.dropWhile (fun c => c.isDigit)
  match rest with
  | [] =>
    if intPart.isEmpty then Option.none
    else (digitsVal intPart).map (fun n => sign * (n : ℚ))
  | '.' :: fracDigits =>
    if fracDigits.all (fun c => c.isDigit) then
      if intPart.isEmpty && fracDigits.isEmpty then Option.none
      else
        match digitsVal intPart, digitsVal fracDigits with
        | Option.some ip, Option.some fp =>
          Option.some (sign * ((ip : ℚ) + (fp : ℚ) / (10 : ℚ) ^ fracDigits.length))
        | _, _ => Option.none
    else Option.none
  | _ => Option.none

/-- `parseFloat(entry.amount || '0')`: the empty string is the only falsy
amount string and falls back to the literal 0. -/
def entryAmount (e : FinancialEntry) : Option ℚ :=
  parseFloatQ (if e.amount = "" then "0" else e.amount)

/-- Floating-point addition with NaN propagation. -/
def addNum : Option ℚ → Option ℚ → Option ℚ
  | Option.some a, Option.some b => Option.some (a + b)
  | _, _ => Option.none

/-- Floating-point subtraction with NaN propagation. -/
def subNum : Option ℚ → Option ℚ → Option ℚ
  | Option.some a, Option.some b => Option.some (a - b)
  | _, _ => Option.none

structure Totals where
  totalIncome : Option ℚ
  totalExpenses : Option ℚ
  balance : Option ℚ
  deriving DecidableEq, Repr

/-- `calculateTotals` (HouseholdBudgetCalculator.tsx lines 107-113): reduce
each table with `sum + parseFloat(entry.amount || '0')` from 0, and subtract
for the balance. -/
def calculateTotals (incomes expenses : List FinancialEntry) : Totals :=
  let totalIncome := incomes.foldl (fun sum e => addNum sum (entryAmount e)) (Option.some 0)
  let totalExpenses := expenses.foldl (fun sum e => addNum sum (entryAmount e)) (Option.some 0)
  { totalIncome := totalIncome
    totalExpenses := totalExpenses
    balance := subNum totalIncome totalExpenses }

/-! ### Concrete fixtures used by counterexamples and witnesses -/

def gDone : Goal :=
  { id := 1, name := "Launch", deadline := "2025-01-01", status := "Done",
    image := Option.none, difficulty := 3,
    milestones := [{ id := 1, name := "First Step", completed := true }],
    notes := [], order := 1, archived := false, favorite := false }

def goalNoMilestones : Goal :=
  { gDone with id := 4, status := "Not Started", milestones := [] }

def gMixed : Goal :=
  { gDone with
    id := 5
    milestones := [{ id := 1, name := "a", completed := true },
      { id := 2, name := "b", completed := false }] }

def gNoneDone : Goal :=
  { gDone with
    id := 6
    milestones := [{ id := 1, name := "a", completed := false }] }

/-- The element `toggleMilestoneClick [gDone] gDone 1` produces. -/
def toggledGoal : Goal :=
  { gDone with
    milestones := [{ id := 1, name := "First Step", completed := false }]
    status := "Not Started" }

def todoA : Todo :=
  { id := 1, text := "buy milk", completed := false, notes := [],
    priority := PriorityLevel.high, archived := false }

def todoB : Todo :=
  { id := 2, text := "call bob", completed := true, notes := [],
    priority := PriorityLevel.none, archived := false }

def grpA : TodoGroup := { id := 10, title := "Monday", todos := [todoA, todoB] }

/-! ### C8: a goal without milestones -/

/-- C8: for every goal whose milestones list is empty, the derived status
(`updateGoalStatus`) is Done (the `every` check is vacuously true) while the
displayed progress percentage for the same goal is 0; an empty goal is
classified as completed at the status level. -/
theorem emptyMilestones_status_done_progress_zero (g : Goal) (h : g.milestones = []) :
    updateGoalStatus g = "Done" ∧ goalProgress g = 0 := by
  refine ⟨?_, ?_⟩
  · simp [updateGoalStatus, h]
  · simp [goalProgress, h]

/-- Witness for C8 at a concrete empty goal. -/
theorem emptyMilestones_witness :
    goalNoMilestones.milestones = [] ∧
    (updateGoalStatus goalNoMilestones = "Done" ∧ goalProgress goalNoMilestones = 0) :=
  ⟨rfl, emptyMilestones_status_done_progress_zero goalNoMilestones rfl⟩

/-! ### C2: status derivation from milestones -/

/-- C2 counterexample: a goal with an empty milestone list has no completed
milestone, yet its derived status is Done, not Not Started, refuting the
clause "if no milestone has completed = true it is Not Started" as a
statement about every goal. -/
theorem status_empty_not_started_counterexample :
    goalNoMilestones.milestones.any (fun m => m.completed) = false ∧
    updateGoalStatus goalNoMilestones = "Done" ∧
    ("Done" : String) ≠ "Not Started" :=
  ⟨rfl, rfl, by decide⟩

/-- C2 as amended: all milestones completed (in particular an empty list)
gives Done; at least one but not all gives In Progress; none completed and a
nonempty list gives Not Started; and the goal a milestone toggle stores
carries exactly this derived status (every other goal in the list is left as
it was). -/
theorem status_derived_from_milestones :
    (∀ g : Goal,
      (g.milestones.all (fun m => m.completed) = true → updateGoalStatus g = "Done") ∧
      (g.milestones.any (fun m => m.completed) = true →
        g.milestones.all (fun m => m.completed) = false →
        updateGoalStatus g = "In Progress") ∧
      (g.milestones.any (fun m => m.completed) = false → g.milestones ≠ [] →
        updateGoalStatus g = "Not Started")) ∧
    (∀ (goals : List Goal) (goal : Goal) (milestoneId : Nat),
      ∀ g2 ∈ toggleMilestoneClick goals goal milestoneId,
        g2 ∈ goals ∨ g2.status = updateGoalStatus g2) := by
  constructor
  · intro g
    refine ⟨fun hall => ?_, fun hany hnall => ?_, fun hany hne => ?_⟩
    · simp [updateGoalStatus, hall]
    · simp [updateGoalStatus, hany, hnall]
    · obtain ⟨m, hm⟩ := List.exists_mem_of_ne_nil g.milestones hne
      have hmc : m.completed = false := by
        have := List.any_eq_false.mp hany m hm
        simpa using this
      have hall : g.milestones.all (fun m => m.completed) = false := by
        rw [List.all_eq_false]
        exact ⟨m, hm, by simp [hmc]⟩
      simp [updateGoalStatus, hany, hall]
  · intro goals goal milestoneId g2 hg2
    simp only [toggleMilestoneClick, List.mem_map] at hg2
    obtain ⟨g0, hg0, rfl⟩ := hg2
    by_cases h : g0.id = goal.id
    · right
      rw [if_pos h]
      rfl
    · left
      rw [if_neg h]
      exact hg0

/-- Witness for C2 as amended, at three concrete goals and one concrete
toggle result. -/
theorem status_derived_witness :
    updateGoalStatus gDone = "Done" ∧
    updateGoalStatus gMixed = "In Progress" ∧
    updateGoalStatus gNoneDone = "Not Started" ∧
    (toggledGoal ∈ ([gDone] : List Goal) ∨ toggledGoal.status = updateGoalStatus toggledGoal) :=
  ⟨(status_derived_from_milestones.1 gDone).1 rfl,
   (status_derived_from_milestones.1 gMixed).2.1 rfl rfl,
   (status_derived_from_milestones.1 gNoneDone).2.2 rfl (by decide),
   status_derived_from_milestones.2 [gDone] gDone 1 toggledGoal (by decide)⟩

/-! ### C1: adding a milestone -/

/-- C1 counterexample: adding a milestone to a goal whose stored status is
Done leaves the stored status Done, while a fresh derivation from the new
milestone set gives In Progress — the status is not recomputed. -/
theorem addMilestone_stale_status_counterexample :
    (addMilestoneClick [gDone] 1 2).map Goal.status = ["Done"] ∧
    (addMilestoneClick [gDone] 1 2).map updateGoalStatus = ["In Progress"] ∧
    ("Done" : String) ≠ "In Progress" :=
  ⟨rfl, rfl, by decide⟩

/-- C1 as amended: the add-milestone operation appends a new milestone
(completed = false) to exactly the matching goal's milestone list, leaves
every other goal and every other field of that goal unchanged — including its
stored status, which is not recomputed from the resulting milestones. -/
theorem addMilestone_appends_keeps_status (goals : List Goal) (goalId newId i : Nat)
    (g : Goal) (hg : goals[i]? = some g) :
    (addMilestoneClick goals goalId newId).length = goals.length ∧
    (g.id ≠ goalId → (addMilestoneClick goals goalId newId)[i]? = some g) ∧
    (g.id = goalId →
      (addMilestoneClick goals goalId newId)[i]? =
        some { g with milestones :=
          g.milestones ++ [{ id := newId, name := "New Task", completed := false }] }) ∧
    (addMilestoneClick goals goalId newId)[i]?.map Goal.status = some g.status := by
  have hmap : (addMilestoneClick goals goalId newId)[i]? =
      some (if g.id = goalId then
        { g with milestones :=
          g.milestones ++ [{ id := newId, name := "New Task", completed := false }] }
      else g) := by
    unfold addMilestoneClick
    rw [List.getElem?_map, hg]
    rfl
  refine ⟨?_, fun hne => ?_, fun heq => ?_, ?_⟩
  · unfold addMilestoneClick
    exact List.length_map goals _
  · rw [hmap, if_neg hne]
  · rw [hmap, if_pos heq]
  · rw [hmap]
    by_cases h : g.id = goalId
    · rw [if_pos h]
      rfl
    · rw [if_neg h]
      rfl

/-- Witness for C1 as amended at a concrete two-goal list. -/
theorem addMilestone_witness :
    (addMilestoneClick [gDone, gNoneDone] 1 7).length = 2 ∧
    (addMilestoneClick [gDone, gNoneDone] 1 7)[0]? =
      some { gDone with milestones :=
        gDone.milestones ++ [{ id := 7, name := "New Task", completed := false }] } ∧
    (addMilestoneClick [gDone, gNoneDone] 1 7)[0]?.map Goal.status = some gDone.status := by
  have h := addMilestone_appends_keeps_status [gDone, gNoneDone] 1 7 0 gDone rfl
  exact ⟨h.1, h.2.2.1 rfl, h.2.2.2⟩

/-! ### C6: deletion filters the list by id -/

/-- C6: `deleteGoal` and `deleteTodo` remove a record by filtering the list:
the result is a sublist of the input (order and contents of the survivors
preserved), no record with the given id survives, every record with a
different id survives, and survivors keep their multiplicity; `deleteTodo`
touches only the todos of the matching group. -/
theorem delete_filters_by_id :
    (∀ (goals : List Goal) (goalId : Nat),
      (deleteGoal goals goalId).Sublist goals ∧
      (∀ g ∈ deleteGoal goals goalId, g.id ≠ goalId) ∧
      (∀ g ∈ goals, g.id ≠ goalId → g ∈ deleteGoal goals goalId) ∧
      (∀ g : Goal, g.id ≠ goalId → (deleteGoal goals goalId).count g = goals.count g)) ∧
    (∀ (todoGroups : List TodoGroup) (groupId todoId i : Nat) (gr : TodoGroup),
      todoGroups[i]? = some gr →
      (gr.id ≠ groupId → (deleteTodo todoGroups groupId todoId)[i]? = some gr) ∧
      (gr.id = groupId →
        (deleteTodo todoGroups groupId todoId)[i]? =
          some { gr with todos := gr.todos.filter (fun t => t.id ≠ todoId) } ∧
        (gr.todos.filter (fun t => t.id ≠ todoId)).Sublist gr.todos ∧
        (∀ t ∈ gr.todos.filter (fun t => t.id ≠ todoId), t.id ≠ todoId) ∧
        (∀ t ∈ gr.todos, t.id ≠ todoId → t ∈ gr.todos.filter (fun t2 => t2.id ≠ todoId)) ∧
        (∀ t : Todo, t.id ≠ todoId →
          (gr.todos.filter (fun t2 => t2.id ≠ todoId)).count t = gr.todos.count t))) := by
  constructor
  · intro goals goalId
    refine ⟨List.filter_sublist goals, ?_, ?_, ?_⟩
    · intro g hg
      have := (List.mem_filter.mp hg).2
      simpa using this
    · intro g hg hne
      exact List.mem_filter.mpr ⟨hg, by simp [hne]⟩
    · intro g hne
      exact List.count_filter (by simp [hne])
  · intro todoGroups groupId todoId i gr hgr
    have hmap : (deleteTodo todoGroups groupId todoId)[i]? =
        some (if gr.id = groupId then
          { gr with todos := gr.todos.filter (fun t => t.id ≠ todoId) }
        else gr) := by
      unfold deleteTodo
      rw [List.getElem?_map, hgr]
      rfl
    refine ⟨fun hne => by rw [hmap, if_neg hne], fun heq => ?_⟩
    refine ⟨by rw [hmap, if_pos heq], List.filter_sublist gr.todos, ?_, ?_, ?_⟩
    · intro t ht
      have := (List.mem_filter.mp ht).2
      simpa using this
    · intro t ht hne
      exact List.mem_filter.mpr ⟨ht, by simp [hne]⟩
    · intro t hne
      exact List.count_filter (by simp [hne])

/-- Witness for C6 at concrete lists. -/
theorem delete_filters_witness :
    (deleteGoal [gDone, gNoneDone] 1).Sublist [gDone, gNoneDone] ∧
    gNoneDone ∈ deleteGoal [gDone, gNoneDone] 1 ∧
    (deleteTodo [grpA] 10 1)[0]? =
      some { grpA with todos := grpA.todos.filter (fun t => t.id ≠ 1) } :=
  ⟨(delete_filters_by_id.1 [gDone, gNoneDone] 1).1,
   (delete_filters_by_id.1 [gDone, gNoneDone] 1).2.2.1 gNoneDone (by decide) (by decide),
   ((delete_filters_by_id.2 [grpA] 10 1 0 grpA rfl).2 rfl).1⟩

/-! ### C10: budget totals -/

theorem foldl_addNum_eq_sum (l : List FinancialEntry) (a : ℚ)
    (h : ∀ e ∈ l, (entryAmount e).isSome) :
    l.foldl (fun sum e => addNum sum (entryAmount e)) (Option.some a) =
      Option.some (a + (l.map (fun e => (entryAmount e).getD 0)).sum) := by
  induction l generalizing a with
  | nil => simp
  | cons e rest ih =>
    obtain ⟨q, hq⟩ := Option.isSome_iff_exists.mp (h e (List.mem_cons_self e rest))
    rw [List.foldl_cons]
    rw [show addNum (Option.some a) (entryAmount e) = Option.some (a + q) by rw [hq]; rfl]
    rw [ih (a + q) (fun x hx => h x (List.mem_cons_of_mem _ hx))]
    rw [List.map_cons, List.sum_cons, hq]
    simp [Option.getD]
    ring

/-- C10: when every amount string parses (an empty string counting as 0),
`calculateTotals` returns the sum of the parsed income amounts, the sum of
the parsed expense amounts, and their difference as the balance. -/
theorem calculateTotals_sums (incomes expenses : List FinancialEntry)
    (h1 : ∀ e ∈ incomes, (entryAmount e).isSome)
    (h2 : ∀ e ∈ expenses, (entryAmount e).isSome) :
    calculateTotals incomes expenses =
      { totalIncome := Option.some ((incomes.map (fun e => (entryAmount e).getD 0)).sum)
        totalExpenses := Option.some ((expenses.map (fun e => (entryAmount e).getD 0)).sum)
        balance := Option.some ((incomes.map (fun e => (entryAmount e).getD 0)).sum -
          (expenses.map (fun e => (entryAmount e).getD 0)).sum) } := by
  unfold calculateTotals
  rw [foldl_addNum_eq_sum incomes 0 h1, foldl_addNum_eq_sum expenses 0 h2]
  simp [subNum]

def incomeRows : List FinancialEntry :=
  [{ category := "Salary Person 1", amount := "100.50", purpose := "" },
   { category := "Side Job", amount := "", purpose := "" }]

def expenseRows : List FinancialEntry :=
  [{ category := "Rent", amount := "40", purpose := "" }]

/-- Witness for C10 at concrete tables. -/
theorem calculateTotals_witness :
    (∀ e ∈ incomeRows, (entryAmount e).isSome) ∧
    (∀ e ∈ expenseRows, (entryAmount e).isSome) ∧
    calculateTotals incomeRows expenseRows =
      { totalIncome := Option.some (201 / 2)
        totalExpenses := Option.some 40
        balance := Option.some (121 / 2) } := by
  have e1 : entryAmount { category := "Salary Person 1", amount := "100.50", purpose := "" } =
      Option.some ((1 : ℚ) * (((100 : Nat) : ℚ) + ((50 : Nat) : ℚ) / (10 : ℚ) ^ 2)) := rfl
  have e2 : entryAmount { category := "Side Job", amount := "", purpose := "" } =
      Option.some ((1 : ℚ) * ((0 : Nat) : ℚ)) := rfl
  have e3 : entryAmount { category := "Rent", amount := "40", purpose := "" } =
      Option.some ((1 : ℚ) * ((40 : Nat) : ℚ)) := rfl
  refine ⟨?_, ?_, ?_⟩
  · intro e he
    simp only [incomeRows, List.mem_cons, List.mem_singleton, List.not_mem_nil] at he
    rcases he with rfl | rfl | h
    · rw [e1]; rfl
    · rw [e2]; rfl
    · cases h
  · intro e he
    simp only [expenseRows, List.mem_singleton] at he
    subst he
    rw [e3]; rfl
  · have h := calculateTotals_sums incomeRows expenseRows
      (by intro e he
          simp only [incomeRows, List.mem_cons, List.mem_singleton, List.not_mem_nil] at he
          rcases he with rfl | rfl | h
          · rw [e1]; rfl
          · rw [e2]; rfl
          · cases h)
      (by intro e he
          simp only [expenseRows, List.mem_singleton] at he
          subst he
          rw [e3]; rfl)
    rw [h]
    simp only [incomeRows, expenseRows, List.map_cons, List.map_nil, List.sum_cons,
      List.sum_nil, e1, e2, e3, Option.getD_some]
    norm_num

/-! ### C3/C4: import acceptance and rejection -/

theorem handleImportProgress_reject (parsed : Option Json) (prev : Json)
    (h : goalsImportAccepted parsed = false) :
    handleImportProgress parsed prev = (prev, false) := by
  cases parsed with
  | none => rfl
  | some data =>
    simp only [handleImportProgress]
    simp only [goalsImportAccepted] at h
    cases hf : data.getField "goals" with
    | none => rfl
    | some j =>
      rw [hf] at h
      cases j with
      | arr elems => simp [Json.isArray] at h
      | null => rfl
      | bool b => rfl
      | num q => rfl
      | str s => rfl
      | obj fields => rfl

theorem handleImportProgress_snd (parsed : Option Json) (prev : Json) :
    (handleImportProgress parsed prev).2 = goalsImportAccepted parsed := by
  cases parsed with
  | none => rfl
  | some data =>
    simp only [handleImportProgress, goalsImportAccepted]
    cases hf : data.getField "goals" with
    | none => rfl
    | some j => cases j <;> rfl

theorem handleImport_reject (parsed : Option Json) (prev : Json × Json)
    (h : budgetImportAccepted parsed = false) :
    handleImport parsed prev = (prev, false) := by
  cases parsed with
  | none => rfl
  | some data =>
    simp only [handleImport]
    simp only [budgetImportAccepted] at h
    cases hi : data.getField "incomes" with
    | none =>
      cases he : data.getField "expenses" with
      | none => rfl
      | some j2 => rfl
    | some j1 =>
      cases he : data.getField "expenses" with
      | none => rfl
      | some j2 =>
        rw [hi, he] at h
        have h2 : (j1.truthy && j2.truthy) = false := h
        simp [h2]

theorem handleImport_snd (parsed : Option Json) (prev : Json × Json) :
    (handleImport parsed prev).2 = budgetImportAccepted parsed := by
  cases parsed with
  | none => rfl
  | some data =>
    simp only [handleImport, budgetImportAccepted]
    cases hi : data.getField "incomes" with
    | none =>
      cases he : data.getField "expenses" with
      | none => rfl
      | some j2 => rfl
    | some j1 =>
      cases he : data.getField "expenses" with
      | none => rfl
      | some j2 =>
        by_cases ht : (j1.truthy && j2.truthy) = true <;> simp [ht]

/-- C4: a malformed import input (parse failure, or a failed shape check
where the tracker has one) is rejected: the error path is taken (second
component false models the alert/console error), the whole combined tracker
state — the importing tracker's list and every other tracker's blob — is
exactly what it was. -/
theorem import_failure_leaves_state (parsed : Option Json) (s : AppTrackerState) :
    (goalsImportAccepted parsed = false → goalsImportApp parsed s = (s, false)) ∧
    (parsed = Option.none → moodImportApp parsed s = (s, false)) ∧
    (budgetImportAccepted parsed = false → budgetImportApp parsed s = (s, false)) := by
  refine ⟨fun h => ?_, fun h => ?_, fun h => ?_⟩
  · simp only [goalsImportApp]
    rw [handleImportProgress_reject parsed s.goals h]
  · subst h
    rfl
  · simp only [budgetImportApp]
    rw [handleImport_reject parsed (s.incomes, s.expenses) h]

def sampleState : AppTrackerState :=
  { goals := Json.arr [], moodEntries := Json.arr [],
    incomes := Json.arr [], expenses := Json.arr [] }

/-- Witness for C4 at concrete malformed inputs. -/
theorem import_failure_witness :
    goalsImportAccepted (Option.some (Json.num 7)) = false ∧
    goalsImportApp (Option.some (Json.num 7)) sampleState = (sampleState, false) ∧
    moodImportApp Option.none sampleState = (sampleState, false) ∧
    budgetImportApp (Option.some (Json.obj [("incomes", Json.arr [])])) sampleState =
      (sampleState, false) :=
  ⟨rfl,
   (import_failure_leaves_state (Option.some (Json.num 7)) sampleState).1 rfl,
   (import_failure_leaves_state Option.none sampleState).2.1 rfl,
   (import_failure_leaves_state (Option.some (Json.obj [("incomes", Json.arr [])]))
     sampleState).2.2 rfl⟩

/-- C3 counterexample: the mood import performs no shape check at all — a
parsed document that is a bare number (not an array of entries) is accepted
and applied to the tracker state. -/
theorem mood_import_no_shape_check_counterexample :
    importMoodEntries (Option.some (Json.num 5)) (Json.arr []) = (Json.num 5, true) ∧
    (Json.num 5).isArray = false :=
  ⟨rfl, rfl⟩

/-- C3 as amended: only the goals import checks that its top-level field is
an array (`Array.isArray`), rejecting everything else without touching the
state; the budget import checks only that `incomes` and `expenses` are
truthy; the mood import accepts any successfully parsed document with no
shape check; the top-level bundle import accepts any successfully parsed
document except the literal null — there `Object.entries` throws, the catch
alerts, and the store is untouched — and applies the accepted document's
entries with no shape check. -/
theorem import_shape_checks (parsed : Option Json) (prevGoals prevMood : Json)
    (prevBudget : Json × Json) (store : List (String × Json)) :
    (handleImportProgress parsed prevGoals).2 = goalsImportAccepted parsed ∧
    (goalsImportAccepted parsed = false →
      (handleImportProgress parsed prevGoals).1 = prevGoals) ∧
    (handleImport parsed prevBudget).2 = budgetImportAccepted parsed ∧
    (budgetImportAccepted parsed = false → (handleImport parsed prevBudget).1 = prevBudget) ∧
    (∀ data, parsed = Option.some data → importMoodEntries parsed prevMood = (data, true)) ∧
    (∀ data, parsed = Option.some data → data ≠ Json.null →
      (importAllProgress parsed store).2 = true) ∧
    importAllProgress (Option.some Json.null) store = (store, false) := by
  refine ⟨handleImportProgress_snd parsed prevGoals, fun h => ?_,
    handleImport_snd parsed prevBudget, fun h => ?_,
    fun data h => ?_, fun data h hdn => ?_, rfl⟩
  · rw [handleImportProgress_reject parsed prevGoals h]
  · rw [handleImport_reject parsed prevBudget h]
  · subst h
    rfl
  · subst h
    cases data with
    | null => exact absurd rfl hdn
    | bool b => rfl
    | num q => rfl
    | str s => rfl
    | arr elems => rfl
    | obj fields => rfl

/-- Witness for C3 as amended at concrete documents. -/
theorem import_shape_checks_witness :
    (handleImportProgress (Option.some (Json.obj [("goals", Json.num 3)])) (Json.arr [])).2 =
      goalsImportAccepted (Option.some (Json.obj [("goals", Json.num 3)])) ∧
    (handleImportProgress (Option.some (Json.obj [("goals", Json.num 3)])) (Json.arr [])).1 =
      Json.arr [] ∧
    importMoodEntries (Option.some (Json.bool true)) (Json.arr []) = (Json.bool true, true) ∧
    (importAllProgress (Option.some (Json.bool true)) []).2 = true ∧
    importAllProgress (Option.some Json.null) [] = ([], false) := by
  have h := import_shape_checks (Option.some (Json.obj [("goals", Json.num 3)]))
    (Json.arr []) (Json.arr []) (Json.null, Json.null) []
  have h2 := import_shape_checks (Option.some (Json.bool true))
    (Json.arr []) (Json.arr []) (Json.null, Json.null) []
  have h3 := import_shape_checks (Option.some Json.null)
    (Json.arr []) (Json.arr []) (Json.null, Json.null) []
  exact ⟨h.1, h.2.1 rfl, h2.2.2.2.2.1 (Json.bool true) rfl,
    h2.2.2.2.2.2.1 (Json.bool true) rfl (fun hc => Json.noConfusion hc),
    h3.2.2.2.2.2.2⟩

/-! ### C5: restore semantics of the backup formats -/

theorem storeGet_cons (kv : String × Json) (store : List (String × Json)) (key : String) :
    storeGet (kv :: store) key =
      if (kv.1 == key) = true then Option.some kv.2 else storeGet store key := by
  by_cases h : (kv.1 == key) = true
  · simp [storeGet, List.find?_cons, h]
  · have h2 : (kv.1 == key) = false := by simpa using h
    simp [storeGet, List.find?_cons, h2]

theorem storeGet_map_set (store : List (String × Json)) (key : String) (v : Json) :
    storeGet (store.map (fun kv => if kv.1 == key then (key, v) else kv)) key =
      if store.any (fun kv => kv.1 == key) then Option.some v else Option.none := by
  induction store with
  | nil => rfl
  | cons kv rest ih =>
    simp only [List.map_cons, List.any_cons]
    by_cases h : (kv.1 == key) = true
    · rw [if_pos h, storeGet_cons]
      simp [h]
    · have h2 : (kv.1 == key) = false := by simpa using h
      rw [if_neg h, storeGet_cons, if_neg h, ih]
      simp only [h2, Bool.false_or]

theorem storeGet_append_absent (store : List (String × Json)) (key : String) (v : Json)
    (h : store.any (fun kv => kv.1 == key) = false) :
    storeGet (store ++ [(key, v)]) key = Option.some v := by
  induction store with
  | nil =>
    rw [List.nil_append, storeGet_cons]
    exact if_pos (beq_self_eq_true key)
  | cons kv rest ih =>
    simp only [List.any_cons, Bool.or_eq_false_iff] at h
    rw [List.cons_append, storeGet_cons, if_neg (by simp [h.1])]
    exact ih h.2

theorem storeGet_storeSet_self (store : List (String × Json)) (key : String) (v : Json) :
    storeGet (storeSet store key v) key = Option.some v := by
  unfold storeSet
  by_cases h : store.any (fun kv => kv.1 == key) = true
  · rw [if_pos h, storeGet_map_set, if_pos h]
  · have h2 : store.any (fun kv => kv.1 == key) = false := Bool.eq_false_iff.mpr h
    rw [if_neg h, storeGet_append_absent store key v h2]

theorem storeGet_map_set_ne (store : List (String × Json)) (key : String) (v : Json)
    (key2 : String) (h : (key == key2) = false) :
    storeGet (store.map (fun kv => if kv.1 == key then (key, v) else kv)) key2 =
      storeGet store key2 := by
  induction store with
  | nil => rfl
  | cons kv rest ih =>
    simp only [List.map_cons]
    by_cases hk : (kv.1 == key) = true
    · have hkeq : kv.1 = key := eq_of_beq hk
      have hk2 : (kv.1 == key2) = false := by rw [hkeq]; exact h
      rw [if_pos hk, storeGet_cons, storeGet_cons, if_neg (by simp [h]), if_neg (by simp [hk2])]
      exact ih
    · rw [if_neg hk, storeGet_cons, storeGet_cons, ih]

theorem storeGet_append_single_ne (store : List (String × Json)) (key : String) (v : Json)
    (key2 : String) (h : (key == key2) = false) :
    storeGet (store ++ [(key, v)]) key2 = storeGet store key2 := by
  induction store with
  | nil =>
    rw [List.nil_append, storeGet_cons, if_neg (by simp [h])]
  | cons kv rest ih =>
    rw [List.cons_append, storeGet_cons, storeGet_cons, ih]

theorem storeGet_storeSet_ne (store : List (String × Json)) (key : String) (v : Json)
    (key2 : String) (h : (key == key2) = false) :
    storeGet (storeSet store key v) key2 = storeGet store key2 := by
  unfold storeSet
  by_cases hmem : store.any (fun kv => kv.1 == key) = true
  · rw [if_pos hmem]
    exact storeGet_map_set_ne store key v key2 h
  · rw [if_neg hmem]
    exact storeGet_append_single_ne store key v key2 h

theorem foldl_entries_get (entries : List (String × Json)) (store : List (String × Json))
    (key : String) (hnd : (entries.map Prod.fst).Nodup) :
    storeGet (entries.foldl
        (fun st kv => if kv.2.truthy then storeSet st kv.1 kv.2 else st) store) key =
      match entries.find? (fun kv => kv.1 == key) with
      | Option.some kv => if kv.2.truthy then Option.some kv.2 else storeGet store key
      | Option.none => storeGet store key := by
  induction entries generalizing store with
  | nil => rfl
  | cons kv rest ih =>
    have hnd2 : kv.1 ∉ rest.map Prod.fst ∧ (rest.map Prod.fst).Nodup := by
      simpa [List.nodup_cons] using hnd
    rw [List.foldl_cons]
    by_cases hkey : (kv.1 == key) = true
    · have hkeq : kv.1 = key := eq_of_beq hkey
      have hrest_none : rest.find? (fun kv2 => kv2.1 == key) = Option.none := by
        rw [List.find?_eq_none]
        intro x hx hxk
        exact hnd2.1 (by
          rw [hkeq]
          rw [← eq_of_beq (by simpa using hxk : (x.1 == key) = true)]
          exact List.mem_map_of_mem Prod.fst hx)
      rw [show ((kv :: rest).find? (fun kv2 => kv2.1 == key)) = Option.some kv from by
        simp [List.find?_cons, hkey]]
      rw [ih _ hnd2.2, hrest_none]
      show storeGet (if kv.2.truthy = true then storeSet store kv.1 kv.2 else store) key =
        if kv.2.truthy = true then Option.some kv.2 else storeGet store key
      by_cases ht : kv.2.truthy = true
      · rw [if_pos ht, if_pos ht, hkeq]
        exact storeGet_storeSet_self store key kv.2
      · rw [if_neg ht, if_neg ht]
    · have hkey2 : (kv.1 == key) = false := by simpa using hkey
      rw [show ((kv :: rest).find? (fun kv2 => kv2.1 == key)) =
          rest.find? (fun kv2 => kv2.1 == key) from by simp [List.find?_cons, hkey2]]
      rw [ih _ hnd2.2]
      have hget : storeGet (if kv.2.truthy then storeSet store kv.1 kv.2 else store) key =
          storeGet store key := by
        by_cases ht : kv.2.truthy = true
        · rw [if_pos ht]
          exact storeGet_storeSet_ne store kv.1 kv.2 key hkey2
        · rw [if_neg ht]
      cases hrf : rest.find? (fun kv2 => kv2.1 == key) with
      | none => rw [hget]
      | some kv2 => rw [hget]

/-- C5 counterexample: the top-level bundle import skips entries with falsy
values (`if (value) localStorage.setItem(...)`), so a bundle that covers the
goals key with a null value leaves the prior stored value in place instead of
replacing it with the bundle's value. -/
theorem bundle_null_keeps_prior_counterexample :
    storeGet (importAllProgress (Option.some (Json.obj [("goals", Json.null)]))
        [("goals", Json.str "OLD")]).1 "goals" = Option.some (Json.str "OLD") ∧
    (Json.obj [("goals", Json.null)]).entries = Option.some [("goals", Json.null)] ∧
    Option.some (Json.str "OLD") ≠ (Option.some Json.null : Option Json) := by
  refine ⟨rfl, rfl, ?_⟩
  intro hcontra
  exact Json.noConfusion (Option.some.inj hcontra)

/-- C5 as amended: a single tracker's import replaces the stored list
wholesale with the file's list (nothing of the prior state survives), while
the top-level bundle import replaces a stored key only when the parsed
document's entries (its fields for an object; index entries for an array or
a string) carry a truthy value for that key — a covered key with a falsy
value (null, false, 0, the empty string) keeps its prior stored value, keys
the entries do not mention are untouched, and a parsed null document throws
in `Object.entries` and leaves the whole store unchanged. -/
theorem restore_overwrites :
    (∀ (data : Json) (gs : List Json) (prev : Json),
      data.getField "goals" = Option.some (Json.arr gs) →
      handleImportProgress (Option.some data) prev = (Json.arr gs, true)) ∧
    (∀ (data : Json) (es : List (String × Json)) (store : List (String × Json))
      (key : String),
      data.entries = Option.some es →
      (es.map Prod.fst).Nodup →
      storeGet (importAllProgress (Option.some data) store).1 key =
        match es.find? (fun kv => kv.1 == key) with
        | Option.some kv => if kv.2.truthy then Option.some kv.2 else storeGet store key
        | Option.none => storeGet store key) ∧
    (∀ store : List (String × Json),
      (importAllProgress (Option.some Json.null) store).1 = store) := by
  refine ⟨?_, ?_, fun store => rfl⟩
  · intro data gs prev hgoals
    simp only [handleImportProgress]
    rw [hgoals]
  · intro data es store key hes hnd
    simp only [importAllProgress, hes]
    exact foldl_entries_get es store key hnd

def bundleDoc : Json := Json.obj [("goals", Json.str "NEW"), ("mood", Json.null)]

def store0 : List (String × Json) := [("goals", Json.str "OLD"), ("mood", Json.str "M")]

/-- Witness for C5 as amended: the goals file replaces the blob, the truthy
bundle entry replaces the stored value, the null bundle entry leaves it, and
a null document leaves the whole store. -/
theorem restore_overwrites_witness :
    handleImportProgress (Option.some (Json.obj [("goals", Json.arr [Json.num 1])]))
      (Json.str "OLD") = (Json.arr [Json.num 1], true) ∧
    storeGet (importAllProgress (Option.some bundleDoc) store0).1 "goals" =
      Option.some (Json.str "NEW") ∧
    storeGet (importAllProgress (Option.some bundleDoc) store0).1 "mood" =
      Option.some (Json.str "M") ∧
    (importAllProgress (Option.some Json.null) store0).1 = store0 := by
  refine ⟨restore_overwrites.1 (Json.obj [("goals", Json.arr [Json.num 1])])
    [Json.num 1] (Json.str "OLD") rfl, ?_, ?_, restore_overwrites.2.2 store0⟩
  · rw [restore_overwrites.2.1 bundleDoc [("goals", Json.str "NEW"), ("mood", Json.null)]
      store0 "goals" rfl (by decide)]
    rfl
  · rw [restore_overwrites.2.1 bundleDoc [("goals", Json.str "NEW"), ("mood", Json.null)]
      store0 "mood" rfl (by decide)]
    rfl

/-! ### C7: getFilteredTodos -/

theorem passesFilter_eq_spec (opts : FilterOptions) (archived : Bool) (todo : Todo) :
    passesFilter opts archived todo = passesFilterSpec opts archived todo := by
  unfold passesFilter passesFilterSpec
  split_ifs with h1 h2 h3 h4 <;>
    simp_all [bne, Bool.and_eq_true, Bool.or_eq_true, beq_iff_eq]
  · exact fun _ hpf => absurd hpf.symm h3.2
  · refine ⟨⟨?_, ?_⟩, ?_⟩
    · cases hsc : opts.showCompleted with
      | true => exact Or.inl rfl
      | false => exact Or.inr (h2 hsc)
    · by_cases hall : opts.priorityFilter = PriorityFilter.all
      · exact Or.inl hall
      · exact Or.inr (h3 hall).symm
    · by_cases hst : opts.searchText = ""
      · exact Or.inl (Or.inl hst)
      · by_cases htext : strIncludes todo.text.toLower opts.searchText.toLower = true
        · exact Or.inl (Or.inr htext)
        · exact Or.inr (h4 hst (Bool.eq_false_iff.mpr htext))

/-- C7: for every todo list and filter configuration, `getFilteredTodos`
returns exactly the todos whose archived flag matches the requested view and
which pass the completed/priority/search filters (a permutation of that
filtered list), arranged in non-increasing priority rank under
high = 3, medium = 2, low = 1, none = 0. -/
theorem getFilteredTodos_spec (opts : FilterOptions) (todos : List Todo) (archived : Bool) :
    (getFilteredTodos opts todos archived).Perm
      (todos.filter (passesFilterSpec opts archived)) ∧
    List.Pairwise
      (fun a b => getPriorityRank b.priority ≤ getPriorityRank a.priority)
      (getFilteredTodos opts todos archived) := by
  constructor
  · have hfe : todos.filter (passesFilter opts archived) =
        todos.filter (passesFilterSpec opts archived) :=
      List.filter_congr (fun x _ => passesFilter_eq_spec opts archived x)
    unfold getFilteredTodos
    rw [hfe]
    exact List.mergeSort_perm _ _
  · unfold getFilteredTodos
    refine List.Pairwise.imp (fun h => of_decide_eq_true h)
      (List.sorted_mergeSort ?_ ?_ (todos.filter (passesFilter opts archived)))
    · intro a b c hab hbc
      exact decide_eq_true (le_trans (of_decide_eq_true hbc) (of_decide_eq_true hab))
    · intro a b
      cases Nat.le_total (getPriorityRank b.priority) (getPriorityRank a.priority) with
      | inl h => simp [h]
      | inr h => simp [h]

/-! ### C9: drag-and-drop reordering -/

/-- A goal with its `order` field normalised, used to compare goal multisets
up to the reassigned ordering. -/
def Goal.clearOrder (g : Goal) : Goal := { g with order := 0 }

theorem assignOrders_map_clearOrder (k : Nat) (l : List Goal) :
    (assignOrders k l).map Goal.clearOrder = l.map Goal.clearOrder := by
  induction l generalizing k with
  | nil => rfl
  | cons g gs ih =>
    simp only [assignOrders, List.map_cons]
    rw [ih]
    rfl

theorem assignOrders_map_order (k : Nat) (l : List Goal) :
    (assignOrders k l).map Goal.order = List.range' (k + 1) l.length := by
  induction l generalizing k with
  | nil => rfl
  | cons g gs ih =>
    simp only [assignOrders, List.map_cons, List.length_cons, List.range'_succ]
    rw [ih]

theorem mem_assignOrders_archived (k : Nat) (l : List Goal)
    (h : ∀ g ∈ l, g.archived = false) :
    ∀ g ∈ assignOrders k l, g.archived = false := by
  induction l generalizing k with
  | nil =>
    intro g hg
    cases hg
  | cons g0 gs ih =>
    intro g hg
    simp only [assignOrders, List.mem_cons] at hg
    rcases hg with rfl | hg
    · exact h g0 (List.mem_cons_self g0 gs)
    · exact ih (k + 1) (fun x hx => h x (List.mem_cons_of_mem g0 hx)) g hg

theorem assignOrders_filter_archived (k : Nat) (l : List Goal)
    (h : ∀ g ∈ l, g.archived = false) :
    (assignOrders k l).filter (fun g => g.archived) = [] := by
  rw [List.filter_eq_nil_iff]
  intro g hg
  simp [mem_assignOrders_archived k l h g hg]

theorem assignOrders_filter_active (k : Nat) (l : List Goal)
    (h : ∀ g ∈ l, g.archived = false) :
    (assignOrders k l).filter (fun g => !g.archived) = assignOrders k l := by
  rw [List.filter_eq_self]
  intro g hg
  simp [mem_assignOrders_archived k l h g hg]

/-- C9: dropping one active goal onto another preserves the multiset of goals
up to the reassigned `order` fields (no goal lost or duplicated), keeps the
archived goals — every field and their relative order — after the active
goals, and afterwards the active goals carry order values exactly 1..n in
list order, where n is the number of active goals. -/
theorem handleDrop_spec (goals : List Goal) (draggedGoalId targetGoalId : Nat)
    (hne : draggedGoalId ≠ targetGoalId)
    (hd : ∃ g ∈ getActiveGoals goals, g.id = draggedGoalId)
    (ht : ∃ g ∈ getActiveGoals goals, g.id = targetGoalId) :
    ((handleDrop goals draggedGoalId targetGoalId).map Goal.clearOrder).Perm
      (goals.map Goal.clearOrder) ∧
    getArchivedGoals (handleDrop goals draggedGoalId targetGoalId) =
      getArchivedGoals goals ∧
    (getActiveGoals (handleDrop goals draggedGoalId targetGoalId)).map Goal.order =
      List.range' 1 (getActiveGoals goals).length := by
  set A := getActiveGoals goals with hA
  set di := A.findIdx (fun g => g.id = draggedGoalId) with hdi
  set ti := A.findIdx (fun g => g.id = targetGoalId) with hti
  have hdi_lt : di < A.length := by
    rw [hdi]
    apply List.findIdx_lt_length.mpr
    obtain ⟨g, hg, hid⟩ := hd
    exact ⟨g, hg, by simp [hid]⟩
  have hti_lt : ti < A.length := by
    rw [hti]
    apply List.findIdx_lt_length.mpr
    obtain ⟨g, hg, hid⟩ := ht
    exact ⟨g, hg, by simp [hid]⟩
  have hfd : A.findIdx? (fun g => g.id = draggedGoalId) = some di :=
    List.findIdx?_eq_some_iff_findIdx_eq.mpr ⟨hdi_lt, hdi.symm⟩
  have hft : A.findIdx? (fun g => g.id = targetGoalId) = some ti :=
    List.findIdx?_eq_some_iff_findIdx_eq.mpr ⟨hti_lt, hti.symm⟩
  have hget : A[di]? = some A[di] := List.getElem?_eq_getElem hdi_lt
  have hunfold : handleDrop goals draggedGoalId targetGoalId =
      assignOrders 0 ((A.eraseIdx di).insertIdx ti A[di]) ++ getArchivedGoals goals := by
    unfold handleDrop
    rw [if_neg hne, ← hA]
    simp only [hfd, hft, hget]
  have hlen_e : (A.eraseIdx di).length = A.length - 1 := by
    rw [List.length_eraseIdx]
    simp [hdi_lt]
  have hti_le : ti ≤ (A.eraseIdx di).length := by
    rw [hlen_e]
    omega
  have hperm1 : ((A.eraseIdx di).insertIdx ti A[di]).Perm (A[di] :: A.eraseIdx di) :=
    List.perm_insertIdx _ _ hti_le
  have hperm2 : (A[di] :: A.eraseIdx di).Perm A := by
    have h2 : A.eraseIdx di = List.take di A ++ List.drop (di + 1) A :=
      List.eraseIdx_eq_take_drop_succ A di
    have h3 : A[di] :: List.drop (di + 1) A = List.drop di A :=
      List.getElem_cons_drop A di hdi_lt
    generalize hx : A[di] = x
    rw [hx] at h3
    have hp : (x :: (List.take di A ++ List.drop (di + 1) A)).Perm
        (List.take di A ++ x :: List.drop (di + 1) A) := List.perm_middle.symm
    rw [h3] at hp
    rw [List.take_append_drop] at hp
    rw [h2]
    exact hp
  have hpermNA : ((A.eraseIdx di).insertIdx ti A[di]).Perm A := hperm1.trans hperm2
  have hNA_active : ∀ g ∈ (A.eraseIdx di).insertIdx ti A[di], g.archived = false := by
    intro g hg
    have hgA : g ∈ A := hpermNA.mem_iff.mp hg
    have h5 := List.mem_filter.mp (show g ∈ goals.filter (fun g0 => !g0.archived) from by
      rw [hA] at hgA
      exact hgA)
    simpa using h5.2
  have hsplit_arch :
      getArchivedGoals (assignOrders 0 ((A.eraseIdx di).insertIdx ti A[di]) ++
        getArchivedGoals goals) = getArchivedGoals goals := by
    unfold getArchivedGoals
    rw [List.filter_append, assignOrders_filter_archived 0 _ hNA_active, List.nil_append]
    exact List.filter_eq_self.mpr (fun a ha => (List.mem_filter.mp ha).2)
  have hsplit_act :
      getActiveGoals (assignOrders 0 ((A.eraseIdx di).insertIdx ti A[di]) ++
        getArchivedGoals goals) = assignOrders 0 ((A.eraseIdx di).insertIdx ti A[di]) := by
    unfold getActiveGoals getArchivedGoals
    rw [List.filter_append, assignOrders_filter_active 0 _ hNA_active]
    have harch_nil : ((goals.filter (fun g => g.archived)).filter (fun g => !g.archived)) = [] := by
      rw [List.filter_eq_nil_iff]
      intro a ha
      simp [(List.mem_filter.mp ha).2]
    rw [harch_nil, List.append_nil]
  refine ⟨?_, ?_, ?_⟩
  · rw [hunfold, List.map_append, assignOrders_map_clearOrder]
    refine (((hpermNA.map Goal.clearOrder).append (List.Perm.refl _))).trans ?_
    rw [← List.map_append]
    refine List.Perm.map _ ?_
    rw [hA]
    have hfp := List.filter_append_perm (fun g => !g.archived) goals
    have heq2 : goals.filter (fun x => !(!x.archived)) = goals.filter (fun g => g.archived) :=
      List.filter_congr (fun x _ => by simp)
    unfold getActiveGoals getArchivedGoals
    rw [← heq2]
    exact hfp
  · rw [hunfold]
    exact hsplit_arch
  · rw [hunfold, hsplit_act, assignOrders_map_order, hpermNA.length_eq]

def gA : Goal := { gDone with id := 21, order := 1 }

def gB : Goal := { gDone with id := 22, order := 2 }

def gC : Goal := { gDone with id := 23, order := 3, archived := true }

/-- Witness for C9: dropping goal 22 onto goal 21 in a three-goal list with
one archived goal. -/
theorem handleDrop_witness :
    ((handleDrop [gA, gB, gC] 22 21).map Goal.clearOrder).Perm
      ([gA, gB, gC].map Goal.clearOrder) ∧
    getArchivedGoals (handleDrop [gA, gB, gC] 22 21) = getArchivedGoals [gA, gB, gC] ∧
    (getActiveGoals (handleDrop [gA, gB, gC] 22 21)).map Goal.order =
      List.range' 1 (getActiveGoals [gA, gB, gC]).length :=
  handleDrop_spec [gA, gB, gC] 22 21 (by decide) (by decide) (by decide)

end AdsTracker
